import Mathlib

/-!
Verification of `flac_to_alac.py` — a batch FLAC→ALAC converter that shells
out to `ffmpeg`.  The script is embedded shallowly: filesystem paths are
lists of components (mirroring `pathlib.PurePath.parts`), the filesystem and
the subprocess boundary are abstracted into an `Env` record of oracles, and
each Python function (`check_ffmpeg`, `convert_flac_to_alac`,
`find_flac_files`, `main`) becomes a Lean function over that record.
Python exceptions are modelled with `Except String`; an uncaught exception
is an `Except.error` carrying the exception's name.
-/

namespace FlacToAlac

/-- A filesystem path, as its list of components (`pathlib.PurePath.parts`).
`[]` models `Path('.')`, whose `name` is the empty string. -/
abbrev Path := List String

/-- `PurePath.name`: the last component, or `""` for `Path('.')`. -/
def Path.name (p : Path) : String :=
  (p.getLast?).getD ""

/-- `str(path)`: components joined by `/`; `Path('.')` prints as `"."`. -/
def pathStr (p : Path) : String :=
  if p = [] then "." else String.intercalate "/" p

/-- Index of the last occurrence of `c` in `cs` (Python `str.rfind`),
`none` when absent. -/
def rfindIdx (cs : List Char) (c : Char) : Option Nat :=
  match cs with
  | [] => none
  | a :: rest =>
    match rfindIdx rest c with
    | some i => some (i + 1)
    | none => if a = c then some 0 else none

/-- `PurePath.suffix` on a file name: the substring from the last dot,
provided that dot is neither the first nor the last character
(CPython: `0 < i < len(name) - 1`); otherwise `""`. -/
def suffixOfName (name : String) : String :=
  let cs := name.toList
  match rfindIdx cs '.' with
  | some i => if 0 < i ∧ i + 1 < cs.length then String.mk (cs.drop i) else ""
  | none => ""

/-- `PurePath.suffix` of a path. -/
def Path.suffix (p : Path) : String :=
  suffixOfName (Path.name p)

/-- ASCII lowering of one character (the script only lowers extensions,
which are ASCII). -/
def lowerChar (c : Char) : Char :=
  if 'A' ≤ c ∧ c ≤ 'Z' then Char.ofNat (c.toNat + 32) else c

/-- `str.lower`, restricted to ASCII case folding. -/
def strLower (s : String) : String :=
  String.mk (s.toList.map lowerChar)

/-- `str.endswith`. -/
def strEndsWith (s suffix : String) : Bool :=
  suffix.toList.isSuffixOf s.toList

/-- `str.startswith`. -/
def strStartsWith (s pre : String) : Bool :=
  pre.toList.isPrefixOf s.toList

/-- `PurePath.with_suffix(suf)`: `ValueError` when `suf` contains the
separator, is relative-dot, lacks a leading dot, or when the path has an
empty name; otherwise the last component gets its suffix replaced.
The new name (old name minus its suffix, plus `suf`). -/
def withSuffixName (name suf : String) : String :=
  let old := suffixOfName name
  if old = "" then name ++ suf
  else String.mk (name.toList.take (name.toList.length - old.toList.length)) ++ suf

/-- `PurePath.with_suffix`, returning `Except` for the `ValueError` cases. -/
def withSuffix (p : Path) (suf : String) : Except String Path :=
  if suf.toList.contains '/' then Except.error "ValueError"
  else if (suf ≠ "" ∧ strStartsWith suf "." = false) ∨ suf = "." then Except.error "ValueError"
  else if Path.name p = "" then Except.error "ValueError"
  else Except.ok (p.dropLast ++ [withSuffixName (Path.name p) suf])

/-- `PurePath.relative_to(base)`: strips `base` when it is a component
prefix, else `ValueError`.  `p.relative_to(p)` yields `[]`, i.e. `Path('.')`. -/
def relative_to (p base : Path) : Except String Path :=
  if base.isPrefixOf p then Except.ok (p.drop base.length) else Except.error "ValueError"

/-- Outcome of one `subprocess.run` invocation: the process exited with a
code and produced text on standard error, or the executable could not be
launched (`FileNotFoundError`). -/
inductive ProcOutcome where
  | exited (code : Nat) (stderr : String)
  | launchFailure
deriving Repr, DecidableEq

/-- The ambient world the script queries: path existence (`Path.exists`),
file/dir kind (`Path.is_file` / `Path.is_dir`), the recursive listing of a
directory's subtree (the paths `rglob('*')` ranges over, full paths), and
the outcome of running a given command line. -/
structure Env where
  pathExists : Path → Bool
  isFile : Path → Bool
  isDir : Path → Bool
  tree : Path → List Path
  run : List String → ProcOutcome

/-- `check_ffmpeg()`: runs `ffmpeg -version` with `check=True`; both
`CalledProcessError` (non-zero exit) and `FileNotFoundError` (launch
failure) are caught and yield `False`. -/
def check_ffmpeg (env : Env) : Bool :=
  match env.run ["ffmpeg", "-version"] with
  | ProcOutcome.exited 0 _ => true
  | _ => false

/-- The ffmpeg command list built at lines 77–84 of the script. -/
def buildCmd (input_path output_path : Path) (overwrite : Bool) : List String :=
  ["ffmpeg", "-i", pathStr input_path, "-c:a", "alac",
   if overwrite then "-y" else "-n", "-loglevel", "error", pathStr output_path]

/-- Which of the function's print-classified outcomes a conversion attempt
reached: input missing, skipped (destination exists, no overwrite),
succeeded, or failed with the encoder's standard error. -/
inductive ResultKind where
  | notFound
  | skipped
  | succeeded
  | failed (stderr : String)
deriving Repr, DecidableEq

/-- Observable outcome of `convert_flac_to_alac`: its boolean return value,
the classified outcome, the command line handed to `subprocess.run` (if
any), and whether the non-FLAC-extension warning was printed. -/
structure ConvReturn where
  retval : Bool
  kind : ResultKind
  invoked : Option (List String)
  warned : Bool
deriving Repr, DecidableEq

/-- `convert_flac_to_alac(input_file, output_file=None, overwrite=False)`.
Mirrors the script line by line: missing input returns `False`; a non-flac
suffix only sets the warning; `output_file=None` derives the destination
with `with_suffix('.m4a')`; an existing destination without overwrite skips
(returns `False`, no process); otherwise `subprocess.run(cmd, check=True)`
is issued — only `CalledProcessError` is caught, so a launch failure
(`FileNotFoundError`) propagates as an uncaught exception. -/
def convert_flac_to_alac (env : Env) (input_file : Path) (output_file : Option Path)
    (overwrite : Bool) : Except String ConvReturn :=
  let input_path := input_file
  if env.pathExists input_path = false then
    Except.ok ⟨false, ResultKind.notFound, none, false⟩
  else
    let warned := strLower (Path.suffix input_path) != ".flac"
    match (match output_file with
           | none => withSuffix input_path ".m4a"
           | some f => Except.ok f) with
    | Except.error e => Except.error e
    | Except.ok output_path =>
      if env.pathExists output_path = true ∧ overwrite = false then
        Except.ok ⟨false, ResultKind.skipped, none, warned⟩
      else
        match env.run (buildCmd input_path output_path overwrite) with
        | ProcOutcome.exited code stderr =>
          if code = 0 then
            Except.ok ⟨true, ResultKind.succeeded,
                       some (buildCmd input_path output_path overwrite), warned⟩
          else
            Except.ok ⟨false, ResultKind.failed stderr,
                       some (buildCmd input_path output_path overwrite), warned⟩
        | ProcOutcome.launchFailure => Except.error "FileNotFoundError"

/-- `find_flac_files(directory)`: `[]` when not a directory, else
`list(rglob('*.flac')) + list(rglob('*.FLAC'))` — two case-sensitive
name-pattern filters over the subtree, concatenated. -/
def find_flac_files (env : Env) (directory : Path) : List Path :=
  if env.isDir directory = false then []
  else
    (env.tree directory).filter (fun p => strEndsWith (Path.name p) ".flac")
      ++ (env.tree directory).filter (fun p => strEndsWith (Path.name p) ".FLAC")

/-- The set the spec's Discovery sentence describes: files of the subtree
whose extension case-insensitively equals `.flac`.  Stated from the spec's
words, for comparison with `find_flac_files`. -/
def claimedDiscovery (env : Env) (directory : Path) : List Path :=
  (env.tree directory).filter (fun p => strLower (Path.suffix p) == ".flac")

/-- The parsed command line: positional input, `--output-dir`,
`--overwrite`, `--recursive` (default true, unused). -/
structure Args where
  input : Path
  output_dir : Option Path
  overwrite : Bool
  recursive : Bool
deriving Repr, DecidableEq

/-- Lines 186–193: the per-file destination.  With `--output-dir`, the
source is made relative to the input root and its suffix replaced, then
joined under the output dir (`ValueError`s propagate); without it, `None`
(the destination is derived inside `convert_flac_to_alac`). -/
def destFor (args : Args) (flac_file : Path) : Except String (Option Path) :=
  match args.output_dir with
  | some output_dir =>
    match relative_to flac_file args.input with
    | Except.error e => Except.error e
    | Except.ok relative_path =>
      match withSuffix relative_path ".m4a" with
      | Except.error e => Except.error e
      | Except.ok s => Except.ok (some (output_dir ++ s))
  | none => Except.ok none

/-- One iteration of the conversion loop (lines 186–198): compute the
destination, convert, and bump exactly one of the two counters. -/
def loopStep (args : Args) (env : Env) (acc : Nat × Nat) (flac_file : Path) :
    Except String (Nat × Nat) :=
  match destFor args flac_file with
  | Except.error e => Except.error e
  | Except.ok output_file =>
    match convert_flac_to_alac env flac_file output_file args.overwrite with
    | Except.error e => Except.error e
    | Except.ok r =>
      Except.ok (if r.retval then (acc.1 + 1, acc.2) else (acc.1, acc.2 + 1))

/-- The `for flac_file in files_to_convert` loop with its
`successful`/`failed` counters. -/
def convertAll (args : Args) (env : Env) (successful failed : Nat) :
    List Path → Except String (Nat × Nat)
  | [] => Except.ok (successful, failed)
  | f :: rest =>
    match loopStep args env (successful, failed) f with
    | Except.error e => Except.error e
    | Except.ok (s, fl) => convertAll args env s fl rest

/-- What a completed run reports: the process exit status and the summary
block's three counts. -/
structure RunReturn where
  exitCode : Nat
  successful : Nat
  failed : Nat
  total : Nat
deriving Repr, DecidableEq

/-- The loop plus the summary: exit status 0, the final counters, and
`total = len(files_to_convert)`. -/
def runLoop (args : Args) (env : Env) (files : List Path) : Except String RunReturn :=
  match convertAll args env 0 0 files with
  | Except.error e => Except.error e
  | Except.ok t => Except.ok ⟨0, t.1, t.2, files.length⟩

/-- Lines 167–178: resolve the input argument to the file list, or
`sys.exit(1)` (modelled as `Except.error` carrying the exit code) when the
input is neither file nor directory, or a directory with no matches. -/
def collectFiles (args : Args) (env : Env) : Except Nat (List Path) :=
  if env.isFile args.input then Except.ok [args.input]
  else if env.isDir args.input then
    let files := find_flac_files env args.input
    if files = [] then Except.error 1 else Except.ok files
  else Except.error 1

/-- `main()`: preflight (exit 1 if ffmpeg unavailable), discovery
(exit 1 on its failures), then the conversion loop and summary.
Directory creation (`mkdir`) side effects are not modelled.
`Except.error` is an uncaught Python exception escaping `main`. -/
def main (args : Args) (env : Env) : Except String RunReturn :=
  if check_ffmpeg env = false then Except.ok ⟨1, 0, 0, 0⟩
  else
    match collectFiles args env with
    | Except.error code => Except.ok ⟨code, 0, 0, 0⟩
    | Except.ok files => runLoop args env files

/-- The interpreter-level exit status: a normally returning `main` exits
with its `sys.exit`/fall-through code; a run killed by an uncaught
exception exits with status 1 (CPython's behaviour for uncaught
exceptions). -/
def processExit (args : Args) (env : Env) : Nat :=
  match main args env with
  | Except.ok r => r.exitCode
  | Except.error _ => 1

/-! Concrete worlds used to instantiate the theorems below. -/

/-- A world where every subprocess launch fails (no ffmpeg binary);
only `a.flac` exists. -/
def envLF : Env :=
  ⟨fun p => p == ["a.flac"], fun p => p == ["a.flac"], fun _ => false,
   fun _ => [], fun _ => ProcOutcome.launchFailure⟩

/-- A world where every subprocess exits 1 with `boom` on standard error;
only `a.flac` exists. -/
def envFail : Env :=
  ⟨fun p => p == ["a.flac"], fun p => p == ["a.flac"], fun _ => false,
   fun _ => [], fun _ => ProcOutcome.exited 1 "boom"⟩

/-- A world where every subprocess exits 0; only the file `a.flac` exists. -/
def envOk : Env :=
  ⟨fun p => p == ["a.flac"], fun p => p == ["a.flac"], fun _ => false,
   fun _ => [], fun _ => ProcOutcome.exited 0 ""⟩

/-- A world where every path exists (in particular every destination);
subprocesses exit 0. -/
def envSkip : Env :=
  ⟨fun _ => true, fun p => p == ["a.flac"], fun _ => false,
   fun _ => [], fun _ => ProcOutcome.exited 0 ""⟩

/-- A world with one directory `d` whose subtree holds the single file
`d/x.Flac` (mixed-case extension). -/
def envC2 : Env :=
  ⟨fun _ => true, fun _ => false, fun p => p == ["d"],
   fun _ => [["d", "x.Flac"]], fun _ => ProcOutcome.exited 0 ""⟩

/-- A world where only the file `song.mp3` (not a FLAC) exists;
subprocesses exit 0. -/
def envC10 : Env :=
  ⟨fun p => p == ["song.mp3"], fun p => p == ["song.mp3"], fun _ => false,
   fun _ => [], fun _ => ProcOutcome.exited 0 ""⟩

/-- `flac_to_alac.py a.flac`. -/
def argsW : Args := ⟨["a.flac"], none, false, true⟩

/-- `flac_to_alac.py a.flac --output-dir out`. -/
def argsOut : Args := ⟨["a.flac"], some ["out"], false, true⟩

/-- `flac_to_alac.py album --output-dir out`. -/
def argsAlbum : Args := ⟨["album"], some ["out"], false, true⟩

/-! Helper lemmas. -/

/-- A list is a `isPrefixOf`-prefix of itself followed by anything. -/
theorem isPrefixOf_append_self (base rel : Path) :
    base.isPrefixOf (base ++ rel) = true := by
  induction base with
  | nil => simp [List.isPrefixOf]
  | cons a rest ih => simp [List.isPrefixOf, ih]

/-- Dropping the first list's length from an append leaves the second. -/
theorem drop_append_self (base rel : Path) :
    (base ++ rel).drop base.length = rel := by
  induction base with
  | nil => rfl
  | cons a rest ih => simp [ih]

/-- A list is a `isPrefixOf`-prefix of itself. -/
theorem isPrefixOf_self (p : Path) : p.isPrefixOf p = true := by
  induction p with
  | nil => simp [List.isPrefixOf]
  | cons a rest ih => simp [List.isPrefixOf, ih]

/-- A boolean that is not `true` is `false`. -/
theorem bool_ne_true {b : Bool} (h : ¬ b = true) : b = false := by
  cases b
  · rfl
  · exact absurd rfl h

/-- A boolean that is not `false` is `true`. -/
theorem bool_ne_false {b : Bool} (h : ¬ b = false) : b = true := by
  cases b
  · exact absurd rfl h
  · rfl

/-- One loop iteration that returns increments exactly one counter. -/
theorem loopStep_sum {args : Args} {env : Env} {s f a b : Nat} {p : Path}
    (h : loopStep args env (s, f) p = Except.ok (a, b)) : a + b = s + f + 1 := by
  unfold loopStep at h
  split at h
  · exact absurd h (by simp)
  · split at h
    · exact absurd h (by simp)
    · rename_i r heq
      simp only [Except.ok.injEq] at h
      split at h <;> (cases h; omega)

/-- The loop's counters sum to the initial sum plus the number of files. -/
theorem convertAll_sum (args : Args) (env : Env) :
    ∀ (files : List Path) (s f a b : Nat),
      convertAll args env s f files = Except.ok (a, b) → a + b = s + f + files.length := by
  intro files
  induction files with
  | nil =>
    intro s f a b h
    simp only [convertAll, Except.ok.injEq, Prod.mk.injEq] at h
    obtain ⟨h1, h2⟩ := h
    simp [← h1, ← h2]
  | cons p rest ih =>
    intro s f a b h
    unfold convertAll at h
    split at h
    · exact absurd h (by simp)
    · rename_i s2 f2 heq
      have h1 := loopStep_sum heq
      have h2 := ih s2 f2 a b h
      simp only [List.length_cons]
      omega

/-- A completed loop reports exit status 0 and counters summing to the
number of files. -/
theorem runLoop_spec {args : Args} {env : Env} {files : List Path} {r : RunReturn}
    (h : runLoop args env files = Except.ok r) :
    r.exitCode = 0 ∧ r.successful + r.failed = files.length ∧ r.total = files.length := by
  unfold runLoop at h
  split at h
  · exact absurd h (by simp)
  · rename_i t heq
    have hs := convertAll_sum args env files 0 0 t.1 t.2 (by rw [Prod.mk.eta]; exact heq)
    injection h with h2
    subst h2
    refine ⟨rfl, by simpa using hs, rfl⟩

/-! Claim theorems. -/

/-- Claim C1, counterexample: when the encoder binary cannot be launched
during a per-file conversion (here: `a.flac` exists, its destination does
not, and the launch fails), `convert_flac_to_alac` does NOT return `False`
— the `FileNotFoundError` propagates as an uncaught exception, so the call
produces no return value at all. -/
theorem C1_counterexample :
    convert_flac_to_alac envLF (["a.flac"] : Path) none false =
      Except.error "FileNotFoundError" ∧
    (convert_flac_to_alac envLF (["a.flac"] : Path) none false).toOption = none :=
  ⟨rfl, rfl⟩

/-- Claim C1, amended: for a conversion attempt that reaches the encoder
invocation, a non-zero exit of the encoder yields the result `failed`
(return value `False`) carrying the encoder's standard-error output, and
the run continues; but a failure to launch the encoder process raises an
uncaught `FileNotFoundError` (only `CalledProcessError` is caught). -/
theorem C1_failure_semantics (env : Env) (input_file dst : Path) (ow : Bool)
    (hex : env.pathExists input_file = true)
    (hdst : withSuffix input_file ".m4a" = Except.ok dst)
    (hskip : ¬(env.pathExists dst = true ∧ ow = false)) :
    (∀ code stderr, env.run (buildCmd input_file dst ow) = ProcOutcome.exited code stderr →
       code ≠ 0 →
       convert_flac_to_alac env input_file none ow =
         Except.ok ⟨false, ResultKind.failed stderr, some (buildCmd input_file dst ow),
                    strLower (Path.suffix input_file) != ".flac"⟩) ∧
    (env.run (buildCmd input_file dst ow) = ProcOutcome.launchFailure →
       convert_flac_to_alac env input_file none ow = Except.error "FileNotFoundError") := by
  constructor
  · intro code stderr hrun hnz
    simp only [convert_flac_to_alac, hdst]
    rw [if_neg (by simp [hex]), if_neg hskip, hrun]
    dsimp only
    rw [if_neg hnz]
  · intro hrun
    simp only [convert_flac_to_alac, hdst]
    rw [if_neg (by simp [hex]), if_neg hskip, hrun]

/-- Claim C1, witness: in the world `envFail` (every subprocess exits 1
with `boom`), converting the existing `a.flac` returns `False` with the
diagnostic text, the encoder having been invoked once. -/
theorem C1_witness :
    convert_flac_to_alac envFail (["a.flac"] : Path) none false =
      Except.ok ⟨false, ResultKind.failed "boom",
                 some (buildCmd ["a.flac"] ["a.m4a"] false), false⟩ :=
  (C1_failure_semantics envFail ["a.flac"] ["a.m4a"] false (by rfl) (by rfl)
      (by decide)).1 1 "boom" (by rfl) (by decide)

/-- Claim C2, counterexample: in a directory holding the single file
`d/x.Flac`, whose extension case-insensitively equals `.flac`, Discovery
returns the empty list — the two case-sensitive patterns `*.flac` and
`*.FLAC` both miss the mixed-case extension, contradicting the claimed
case-insensitive match. -/
theorem C2_counterexample :
    find_flac_files envC2 (["d"] : Path) = [] ∧
    claimedDiscovery envC2 (["d"] : Path) = [["d", "x.Flac"]] ∧
    envC2.isDir ["d"] = true :=
  ⟨rfl, rfl, rfl⟩

/-- Claim C2, amended: for every directory input, Discovery returns
exactly the files anywhere in the subtree whose name ends with the exact
string `.flac` or the exact string `.FLAC`, regardless of nesting depth;
other case variants such as `.Flac` are excluded. -/
theorem C2_discovery_exact (env : Env) (d p : Path) :
    p ∈ find_flac_files env d ↔
      env.isDir d = true ∧ p ∈ env.tree d ∧
      (strEndsWith (Path.name p) ".flac" = true ∨
       strEndsWith (Path.name p) ".FLAC" = true) := by
  unfold find_flac_files
  cases hd : env.isDir d with
  | false => simp
  | true =>
    simp only [Bool.true_eq_false, if_false, List.mem_append, List.mem_filter, true_and]
    tauto

/-- Claim C3: whenever the conversion loop completes, the summary counts
satisfy `successful + failed = total`, and `total` is the number of
discovered files — each file bumps exactly one of the two counters. -/
theorem C3_summary_counts (args : Args) (env : Env) (files : List Path) (r : RunReturn)
    (h : runLoop args env files = Except.ok r) :
    r.successful + r.failed = r.total ∧ r.total = files.length := by
  obtain ⟨h0, h1, h2⟩ := runLoop_spec h
  exact ⟨by omega, h2⟩

/-- Claim C3, witness: a one-file run in `envOk` completes with
`1 + 0 = 1`. -/
theorem C3_witness :
    ((⟨0, 1, 0, 1⟩ : RunReturn).successful + (⟨0, 1, 0, 1⟩ : RunReturn).failed
       = (⟨0, 1, 0, 1⟩ : RunReturn).total) ∧
    (⟨0, 1, 0, 1⟩ : RunReturn).total = ([["a.flac"]] : List Path).length :=
  C3_summary_counts argsW envOk [["a.flac"]] ⟨0, 1, 0, 1⟩ (by rfl)

/-- Claim C6: when the destination exists and overwrite is disabled, the
conversion is classified `skipped`: the return carries no invoked command
(no external process is started) and the function returns before touching
the encoder. -/
theorem C6_skip (env : Env) (input_file dst : Path)
    (hex : env.pathExists input_file = true)
    (hdst : env.pathExists dst = true) :
    convert_flac_to_alac env input_file (some dst) false =
      Except.ok ⟨false, ResultKind.skipped, none,
                 strLower (Path.suffix input_file) != ".flac"⟩ := by
  simp only [convert_flac_to_alac]
  rw [if_neg (by simp [hex]),
      if_pos (⟨hdst, trivial⟩ : env.pathExists dst = true ∧ True)]

/-- Claim C6, witness: with both `a.flac` and the destination `a.m4a`
present and no `--overwrite`, the attempt is skipped with no command
invoked. -/
theorem C6_witness :
    convert_flac_to_alac envSkip (["a.flac"] : Path) (some ["a.m4a"]) false =
      Except.ok ⟨false, ResultKind.skipped, none, false⟩ :=
  C6_skip envSkip ["a.flac"] ["a.m4a"] (by rfl) (by rfl)

/-- Claim C4: with `--output-dir`, the destination of a source lying
strictly inside the input root is the output directory joined with the
source's path relative to that root, its last component's extension
replaced by `.m4a` (structure preserved); without `--output-dir`, the
per-file destination is left to `convert_flac_to_alac`, which replaces the
source's extension in place — same directory, `.m4a` name.  (Directory
creation is a side effect outside this model.) -/
theorem C4_destination (args : Args) (od rel flac : Path) :
    (args.output_dir = some od → flac = args.input ++ rel → Path.name rel ≠ "" →
       destFor args flac =
         Except.ok (some (od ++ (rel.dropLast ++ [withSuffixName (Path.name rel) ".m4a"])))) ∧
    (args.output_dir = none →
       destFor args flac = Except.ok none ∧
       (Path.name flac ≠ "" →
          withSuffix flac ".m4a" =
            Except.ok (flac.dropLast ++ [withSuffixName (Path.name flac) ".m4a"]))) := by
  have hws : ∀ q : Path, Path.name q ≠ "" →
      withSuffix q ".m4a" = Except.ok (q.dropLast ++ [withSuffixName (Path.name q) ".m4a"]) := by
    intro q hq
    unfold withSuffix
    rw [if_neg (by decide), if_neg (by decide), if_neg hq]
  constructor
  · intro hod hflac hname
    subst hflac
    have hrel : relative_to (args.input ++ rel) args.input = Except.ok rel := by
      unfold relative_to
      rw [if_pos (isPrefixOf_append_self args.input rel), drop_append_self]
    unfold destFor
    rw [hod]
    dsimp only
    rw [hrel]
    dsimp only
    rw [hws rel hname]
  · intro hod
    refine ⟨?_, fun hname => hws flac hname⟩
    unfold destFor
    rw [hod]

/-- Claim C4, witness: for `album/sub/track2.flac` under input root
`album` with `--output-dir out`, the destination is
`out/sub/track2.m4a`. -/
theorem C4_witness :
    destFor argsAlbum (["album", "sub", "track2.flac"] : Path) =
      Except.ok (some (["out", "sub", "track2.m4a"] : Path)) :=
  (C4_destination argsAlbum ["out"] ["sub", "track2.flac"]
      ["album", "sub", "track2.flac"]).1 (by rfl) (by rfl) (by decide)

/-- Claim C7: when the input argument is a single regular file and
`--output-dir` is supplied, `relative_to` of the file against itself
yields the empty path, whose `with_suffix` raises `ValueError`; the
exception is uncaught and the whole run dies before any conversion. -/
theorem C7_value_error (env : Env) (p od : Path) (ow rcv : Bool)
    (hff : check_ffmpeg env = true)
    (hf : env.isFile p = true) :
    main ⟨p, some od, ow, rcv⟩ env = Except.error "ValueError" := by
  have hcf : collectFiles ⟨p, some od, ow, rcv⟩ env = Except.ok [p] := by
    unfold collectFiles
    dsimp only
    rw [if_pos hf]
  have hrel : relative_to p p = Except.ok [] := by
    unfold relative_to
    rw [if_pos (isPrefixOf_self p), List.drop_length]
  have hdf : destFor ⟨p, some od, ow, rcv⟩ p = Except.error "ValueError" := by
    unfold destFor
    dsimp only
    rw [hrel]
    rfl
  have hloop : runLoop ⟨p, some od, ow, rcv⟩ env [p] = Except.error "ValueError" := by
    unfold runLoop convertAll loopStep
    rw [hdf]
  unfold main
  rw [if_neg (by simp [hff])]
  rw [hcf]
  dsimp only
  exact hloop

/-- Claim C7, witness: `flac_to_alac.py a.flac --output-dir out` in a
world where ffmpeg is available and `a.flac` is a regular file dies with
the uncaught `ValueError`. -/
theorem C7_witness :
    main argsOut envOk = Except.error "ValueError" :=
  C7_value_error envOk ["a.flac"] ["out"] false true (by rfl) (by rfl)

/-- Claim C8: whenever a conversion returns after invoking the encoder,
the invoked command line is exactly
`ffmpeg -i <source> -c:a alac <-y|-n> -loglevel error <destination>`,
in that order, with no other arguments. -/
theorem C8_command_shape (env : Env) (input_file dst : Path) (ow : Bool)
    (r : ConvReturn) (c : List String)
    (h : convert_flac_to_alac env input_file (some dst) ow = Except.ok r)
    (hc : r.invoked = some c) :
    c = ["ffmpeg", "-i", pathStr input_file, "-c:a", "alac",
         if ow then "-y" else "-n", "-loglevel", "error", pathStr dst] := by
  simp only [convert_flac_to_alac] at h
  split at h
  · injection h with h2
    subst h2
    simp at hc
  · split at h
    · injection h with h2
      subst h2
      simp at hc
    · split at h
      · split at h
        · injection h with h2
          subst h2
          dsimp only at hc
          injection hc with hc2
          rw [← hc2]
          rfl
        · injection h with h2
          subst h2
          dsimp only at hc
          injection hc with hc2
          rw [← hc2]
          rfl
      · exact absurd h (by simp)

/-- Claim C8, witness: the successful conversion of `a.flac` to `a.m4a`
without `--overwrite` invoked exactly
`ffmpeg -i a.flac -c:a alac -n -loglevel error a.m4a`. -/
theorem C8_witness :
    (["ffmpeg", "-i", "a.flac", "-c:a", "alac", "-n", "-loglevel", "error",
      "a.m4a"] : List String) =
      ["ffmpeg", "-i", pathStr ["a.flac"], "-c:a", "alac",
       if false then "-y" else "-n", "-loglevel", "error", pathStr ["a.m4a"]] :=
  C8_command_shape envOk ["a.flac"] ["a.m4a"] false
    ⟨true, ResultKind.succeeded, some (buildCmd ["a.flac"] ["a.m4a"] false), false⟩
    ["ffmpeg", "-i", "a.flac", "-c:a", "alac", "-n", "-loglevel", "error", "a.m4a"]
    (by rfl) (by rfl)

/-- Claim C9: the preflight check runs `ffmpeg -version` and returns true
exactly when that process launches and exits 0 — any launch failure or
non-zero exit makes it false — and when it is false, the whole run exits
with status 1 and zero files converted (aborts before any file is
touched). -/
theorem C9_preflight (env : Env) (args : Args) :
    (check_ffmpeg env = true ↔
       ∃ s, env.run ["ffmpeg", "-version"] = ProcOutcome.exited 0 s) ∧
    (check_ffmpeg env = false → main args env = Except.ok ⟨1, 0, 0, 0⟩) := by
  constructor
  · unfold check_ffmpeg
    cases hr : env.run ["ffmpeg", "-version"] with
    | exited code s =>
      cases code with
      | zero => simp
      | succ n => simp
    | launchFailure => simp
  · intro hff
    unfold main
    rw [if_pos hff]

/-- Claim C9, witness: in the world where every launch fails, the check is
false (and there is no exit-0 outcome to witness), and the run exits 1
having converted nothing. -/
theorem C9_witness :
    (check_ffmpeg envLF = true ↔
       ∃ s, envLF.run ["ffmpeg", "-version"] = ProcOutcome.exited 0 s) ∧
    main argsW envLF = Except.ok ⟨1, 0, 0, 0⟩ :=
  ⟨(C9_preflight envLF argsW).1, (C9_preflight envLF argsW).2 (by rfl)⟩

/-- Claim C10: a regular-file input is collected as the single-element
list containing it, with no extension check; and for any extension, a
conversion whose input exists, whose derived destination does not, and
whose encoder runs to an exit, does invoke the encoder — the non-`.flac`
extension only sets the warning flag, it never blocks the conversion. -/
theorem C10_file_input (env : Env) (p dst : Path) (od : Option Path) (ow rcv : Bool)
    (code : Nat) (s : String)
    (hf : env.isFile p = true)
    (hex : env.pathExists p = true)
    (hws : withSuffix p ".m4a" = Except.ok dst)
    (hdst : env.pathExists dst = false)
    (hrun : env.run (buildCmd p dst ow) = ProcOutcome.exited code s) :
    collectFiles ⟨p, od, ow, rcv⟩ env = Except.ok [p] ∧
    ∃ r, convert_flac_to_alac env p none ow = Except.ok r ∧
         r.invoked = some (buildCmd p dst ow) ∧
         r.warned = (strLower (Path.suffix p) != ".flac") := by
  constructor
  · unfold collectFiles
    dsimp only
    rw [if_pos hf]
  · simp only [convert_flac_to_alac, hws]
    rw [if_neg (by simp [hex]), if_neg (by simp [hdst]), hrun]
    dsimp only
    by_cases hcode : code = 0
    · rw [if_pos hcode]
      exact ⟨_, rfl, rfl, rfl⟩
    · rw [if_neg hcode]
      exact ⟨_, rfl, rfl, rfl⟩

/-- Claim C10, witness: the non-FLAC file `song.mp3` is collected as the
one-element list and converted anyway — the encoder is invoked, with the
warning flag set. -/
theorem C10_witness :
    collectFiles ⟨["song.mp3"], none, false, true⟩ envC10 = Except.ok [["song.mp3"]] ∧
    ∃ r, convert_flac_to_alac envC10 (["song.mp3"] : Path) none false = Except.ok r ∧
         r.invoked = some (buildCmd ["song.mp3"] ["song.m4a"] false) ∧
         r.warned = (strLower (Path.suffix (["song.mp3"] : Path)) != ".flac") :=
  C10_file_input envC10 ["song.mp3"] ["song.m4a"] none false true 0 ""
    (by rfl) (by rfl) (by rfl) (by rfl) (by rfl)

/-- Claim C5, counterexample: with ffmpeg available and an existing
regular file as input plus `--output-dir`, the process exit status is 1
(the uncaught `ValueError` of the single-file/output-dir path kills the
interpreter) although the encoder is available and the input path exists —
so exit 1 is not limited to the three listed causes. -/
theorem C5_counterexample :
    processExit argsOut envOk = 1 ∧
    check_ffmpeg envOk = true ∧
    envOk.isFile argsOut.input = true ∧
    main argsOut envOk = Except.error "ValueError" :=
  ⟨rfl, rfl, rfl, rfl⟩

/-- Claim C5, amended: a run in which `main` returns exits 0 on normal
completion (even with per-file failures) and 1 exactly when the encoder is
unavailable, the input path is neither file nor directory, or a directory
input yields zero matching files; in addition, a run killed by an uncaught
exception (the C7 `ValueError`) also exits with status 1. -/
theorem C5_exit_codes (args : Args) (env : Env) :
    (∀ r, main args env = Except.ok r →
       (processExit args env = r.exitCode ∧
        (r.exitCode = 0 ∨ r.exitCode = 1) ∧
        (r.exitCode = 1 ↔
          (check_ffmpeg env = false ∨
           (env.isFile args.input = false ∧ env.isDir args.input = false) ∨
           (env.isFile args.input = false ∧ env.isDir args.input = true ∧
            find_flac_files env args.input = []))))) ∧
    (∀ e, main args env = Except.error e → processExit args env = 1) := by
  constructor
  · intro r h
    have hpe : processExit args env = r.exitCode := by
      unfold processExit
      rw [h]
    refine ⟨hpe, ?_⟩
    unfold main at h
    by_cases hff : check_ffmpeg env = false
    · rw [if_pos hff] at h
      injection h with h2
      subst h2
      exact ⟨Or.inr rfl, fun _ => Or.inl hff, fun _ => rfl⟩
    · rw [if_neg hff] at h
      have hff2 : check_ffmpeg env = true := bool_ne_false hff
      simp only [collectFiles] at h
      by_cases hf : env.isFile args.input = true
      · rw [if_pos hf] at h
        dsimp only at h
        obtain ⟨h0, h1, h2⟩ := runLoop_spec h
        refine ⟨Or.inl h0, ?_⟩
        rw [h0]
        simp [hff2, hf]
      · have hf2 : env.isFile args.input = false := bool_ne_true hf
        rw [if_neg hf] at h
        by_cases hd : env.isDir args.input = true
        · rw [if_pos hd] at h
          by_cases hempty : find_flac_files env args.input = []
          · rw [if_pos hempty] at h
            dsimp only at h
            injection h with h2
            subst h2
            exact ⟨Or.inr rfl, fun _ => Or.inr (Or.inr ⟨hf2, hd, hempty⟩), fun _ => rfl⟩
          · rw [if_neg hempty] at h
            dsimp only at h
            obtain ⟨h0, h1, h2⟩ := runLoop_spec h
            refine ⟨Or.inl h0, ?_⟩
            rw [h0]
            simp [hff2, hf2, hd, hempty]
        · have hd2 : env.isDir args.input = false := bool_ne_true hd
          rw [if_neg hd] at h
          dsimp only at h
          injection h with h2
          subst h2
          exact ⟨Or.inr rfl, fun _ => Or.inr (Or.inl ⟨hf2, hd2⟩), fun _ => rfl⟩
  · intro e h
    unfold processExit
    rw [h]

/-- Claim C5, witness: with no ffmpeg, `main` returns exit code 1, the
process exit status agrees, and the code-1 characterization holds. -/
theorem C5_witness :
    processExit argsW envLF = (⟨1, 0, 0, 0⟩ : RunReturn).exitCode ∧
    ((⟨1, 0, 0, 0⟩ : RunReturn).exitCode = 0 ∨ (⟨1, 0, 0, 0⟩ : RunReturn).exitCode = 1) ∧
    ((⟨1, 0, 0, 0⟩ : RunReturn).exitCode = 1 ↔
      (check_ffmpeg envLF = false ∨
       (envLF.isFile argsW.input = false ∧ envLF.isDir argsW.input = false) ∨
       (envLF.isFile argsW.input = false ∧ envLF.isDir argsW.input = true ∧
        find_flac_files envLF argsW.input = []))) :=
  (C5_exit_codes argsW envLF).1 ⟨1, 0, 0, 0⟩ (by rfl)

end FlacToAlac
